import Mathlib

/-!
Shallow embedding of the parameter-binding layer of the `ora` Oracle driver
(files `bndLob.go`, `bndIntervalDS.go`, `drvStmt.go` and the time binder),
together with theorems checking the natural-language specification against it.

Native OCI calls are modelled at their interface: each call is represented by
its observable status (success / `OCI_ERROR` / `OCI_INVALID_HANDLE`) or by a
boolean success flag, and the sequence of native calls a function issues is
collected in an explicit trace.  Go panics that the source recovers with a
deferred `recover()` are modelled as explicit early returns carrying a
recovered-error value.
-/

set_option autoImplicit false

namespace Ora

/-- The error values this layer can produce.
`errNew` models `errNew(msg)` (a driver-level error with a fixed message);
`er` models `er(msg)` from `drvStmt.go`; `ociError` models
`env.ociError()`, the generic "last native error" fetched from the OCI error
handle; `goErr` models an error value that originated outside the driver
(for example from an `io.Reader`) and is passed through unchanged;
`errRecovered` models `errR(value)`, the error produced when a deferred
`recover()` catches a Go panic; `outOfFuel` is an artifact of the fuelled
loop embedding below and is never produced when enough fuel is supplied. -/
inductive OraErr where
  | errNew (msg : String)
  | er (msg : String)
  | ociError
  | goErr (msg : String)
  | errRecovered
  | outOfFuel
deriving DecidableEq, Repr

/-- Models `errE(err)` from the source: it wraps an error with caller
information for logging; the underlying error value is unchanged, which is
all this development observes. -/
def errE (e : OraErr) : OraErr := e

/-- The observable status of a native OCI call that the source inspects:
`success` (any status the code does not branch on, including
`OCI_SUCCESS`), `error` (`OCI_ERROR`) and `invalidHandle`
(`OCI_INVALID_HANDLE`). -/
inductive OCIStatus where
  | success
  | error
  | invalidHandle
deriving DecidableEq, Repr

/-! ### The zone-offset string (`zoneOffset` in the time binder)

The Go function receives `value time.Time` and reads
`_, zoneOffsetInSeconds := value.Zone()`; the embedding takes that signed
offset in seconds directly.  `fmt.Sprintf("%02d", n)` on a non-negative
`int` prints the decimal digits of `n`, left-padded with `0` to width 2. -/

/-- Go `fmt.Sprintf("%02d", n)` for a non-negative argument, as a character
list: the decimal representation of `n`, zero-padded to at least width 2. -/
def sprintf02d (n : Nat) : List Char :=
  if n < 10 then ['0', Nat.digitChar n] else Nat.toDigits 10 n

/-- `zoneOffset` from the time binder: writes a sign rune (`'-'` for a
negative offset, negating the offset; `'+'` otherwise), then the hour part
`offset / 3600` with `%02d`, then `':'`, then the minute part
`(offset - hour*3600) / 60` with `%02d`.  The result is the buffer
content as a character list. -/
def zoneOffset (zoneOffsetInSeconds : Int) : List Char :=
  let sign : Char := if zoneOffsetInSeconds < 0 then '-' else '+'
  let s : Nat := (if zoneOffsetInSeconds < 0 then -zoneOffsetInSeconds
                  else zoneOffsetInSeconds).toNat
  let hourOffset := s / 3600
  let rest := s - hourOffset * 3600
  let minuteOffset := rest / 60
  sign :: (sprintf02d hourOffset ++ ':' :: sprintf02d minuteOffset)

/-- For arguments below 100 (the only ones `zoneOffset` produces for a
zone offset smaller than a day), `%02d` is exactly the two digit
characters. -/
theorem sprintf02d_lt_100 :
    ∀ n, n < 100 →
      sprintf02d n = [Nat.digitChar (n / 10), Nat.digitChar (n % 10)] := by
  decide

/-- Claim C5: for every valid time value (zone offset strictly between
-24h and +24h in seconds), the string produced by `zoneOffset` is exactly
6 characters of the form sign, two hour digits, `':'`, two minute digits,
with the hour in [0,23], the minute in [0,59], and the sign `'-'` exactly
when the offset is negative (`'+'` when zero or positive). -/
theorem zoneOffset_form (off : Int)
    (h1 : -86400 < off) (h2 : off < 86400) :
    (zoneOffset off).length = 6 ∧
    zoneOffset off =
      (if off < 0 then '-' else '+') ::
        Nat.digitChar (off.natAbs / 3600 / 10) ::
        Nat.digitChar (off.natAbs / 3600 % 10) :: ':' ::
        Nat.digitChar (off.natAbs % 3600 / 60 / 10) ::
        Nat.digitChar (off.natAbs % 3600 / 60 % 10) :: [] ∧
    off.natAbs / 3600 ≤ 23 ∧
    off.natAbs % 3600 / 60 ≤ 59 ∧
    ((zoneOffset off).headD ' ' = '-' ↔ off < 0) := by
  have habs : off.natAbs < 86400 := by omega
  have hs : (if off < 0 then -off else off).toNat = off.natAbs := by
    by_cases h : off < 0 <;> simp [h] <;> omega
  have hhour : off.natAbs / 3600 ≤ 23 := by omega
  have hmin : off.natAbs % 3600 / 60 ≤ 59 := by omega
  have hrest : off.natAbs - off.natAbs / 3600 * 3600 = off.natAbs % 3600 := by
    omega
  have heq : zoneOffset off =
      (if off < 0 then '-' else '+') ::
        Nat.digitChar (off.natAbs / 3600 / 10) ::
        Nat.digitChar (off.natAbs / 3600 % 10) :: ':' ::
        Nat.digitChar (off.natAbs % 3600 / 60 / 10) ::
        Nat.digitChar (off.natAbs % 3600 / 60 % 10) :: [] := by
    unfold zoneOffset
    simp only [hs]
    rw [hrest]
    rw [sprintf02d_lt_100 _ (by omega), sprintf02d_lt_100 _ (by omega)]
    simp
  refine ⟨by rw [heq]; rfl, heq, hhour, hmin, ?_⟩
  rw [heq]
  by_cases h : off < 0 <;> simp [h]

/-- Witness for `zoneOffset_form` at the concrete offset -19800 seconds
(the -05:30 zone). -/
theorem zoneOffset_form_witness :
    (zoneOffset (-19800)).length = 6 ∧
    zoneOffset (-19800) =
      (if (-19800 : Int) < 0 then '-' else '+') ::
        Nat.digitChar ((-19800 : Int).natAbs / 3600 / 10) ::
        Nat.digitChar ((-19800 : Int).natAbs / 3600 % 10) :: ':' ::
        Nat.digitChar ((-19800 : Int).natAbs % 3600 / 60 / 10) ::
        Nat.digitChar ((-19800 : Int).natAbs % 3600 / 60 % 10) :: [] ∧
    (-19800 : Int).natAbs / 3600 ≤ 23 ∧
    (-19800 : Int).natAbs % 3600 / 60 ≤ 59 ∧
    ((zoneOffset (-19800)).headD ' ' = '-' ↔ (-19800 : Int) < 0) :=
  zoneOffset_form (-19800) (by decide) (by decide)

/-! ### The LOB streaming write (`writeLob` in `bndLob.go`)

The byte source (`io.Reader`) is modelled by the number of bytes it still
yields before its terminal condition, plus that terminal condition: clean
end of stream (`errAfter = none`) or a reader error with a message
(`errAfter = some msg`).  Buffer contents are not modelled: the claims
under check only concern the piece classification, the chunk lengths and
the offsets of the native write calls.  The native `OCILobWrite2` call is
modelled by a per-call success flag `wOk`; on success the full chunk is
accepted (`byte_amtp` comes back as the chunk length). -/

/-- The outcome of `io.ReadFull`: clean `io.EOF` (no byte read),
`io.ErrUnexpectedEOF` (some bytes but fewer than the buffer), or an
underlying reader error returned verbatim. -/
inductive ReadErr where
  | eof
  | unexpectedEof
  | other (msg : String)
deriving DecidableEq, Repr

/-- A byte source: `avail` bytes remain, after which the source reports a
clean end of stream (`errAfter = none`) or the error `errAfter = some msg`. -/
structure Rd where
  avail : Nat
  errAfter : Option String
deriving DecidableEq, Repr

/-- `io.ReadFull(r, buf)` with `want = len(buf)`: reads `min want r.avail`
bytes; a full read returns no error; a short read surfaces the underlying
error verbatim when there is one, `io.EOF` when nothing was read, and
`io.ErrUnexpectedEOF` otherwise.  Returns (bytes read, error, rest of
source). -/
def readFull : Rd → Nat → Nat × Option ReadErr × Rd
  | ⟨avail, errAfter⟩, want =>
    if want ≤ avail then (want, none, ⟨avail - want, errAfter⟩)
    else
      match errAfter with
      | some m => (avail, some (.other m), ⟨0, some m⟩)
      | none =>
        if avail = 0 then (0, some .eof, ⟨0, none⟩)
        else (avail, some .unexpectedEof, ⟨0, none⟩)

/-- The OCI piece classification of one chunked write:
`OCI_ONE_PIECE`, `OCI_FIRST_PIECE`, `OCI_NEXT_PIECE`, `OCI_LAST_PIECE`. -/
inductive Piece where
  | one
  | first
  | next
  | last
deriving DecidableEq, Repr

/-- One native `OCILobWrite2` call as issued by `writeLob`: its piece
classification, the chunk length `n`, and the 1-based `offset` argument
(`off+1` in the source). -/
structure WriteCall where
  piece : Piece
  len : Nat
  off : Nat
deriving DecidableEq, Repr

/-- The `for` loop of `writeLob`, with explicit fuel (the loop consumes at
least one source byte per iteration except the final one, so
`avail + 2` fuel always suffices; the `outOfFuel` result is never reached
then).  State: the remaining source `r`, `actLen = len(actBuf)`,
`actPiece`, `nextPiece`, the running byte offset `off`, the index `idx` of
the next native write (for the per-call success flag), and the trace of
native writes issued so far. -/
def writeLobLoop (wOk : Nat → Bool) (B : Nat) :
    Nat → Rd → Nat → Piece → Piece → Nat → Nat → List WriteCall →
    List WriteCall × Except OraErr Unit
  | 0, _, _, _, _, _, _, trace => (trace, .error .outOfFuel)
  | fuel+1, r, actLen, actPiece, nextPiece, off, idx, trace =>
    -- pre-read the next chunk when the current one fills the buffer,
    -- reclassifying the pending chunk from the lookahead result; then the
    -- native write of actBuf at offset off+1; break on ONE/LAST, else swap
    -- (actPiece, actBuf = nextPiece, nextBuf) and continue
    if actLen = B then
      match readFull r B with
      | (_, some (.other m), _) => (trace, .error (.goErr m))
      | (n2, some .eof, r2) =>
        let ap := if actPiece = .first then Piece.one else Piece.last
        let trace2 := trace ++ [⟨ap, actLen, off + 1⟩]
        if wOk idx = false then (trace2, .error .ociError)
        else if ap = .one ∨ ap = .last then (trace2, .ok ())
        else writeLobLoop wOk B fuel r2 n2 nextPiece nextPiece
          (off + actLen) (idx + 1) trace2
      | (n2, some .unexpectedEof, r2) =>
        let trace2 := trace ++ [⟨actPiece, actLen, off + 1⟩]
        if wOk idx = false then (trace2, .error .ociError)
        else if actPiece = .one ∨ actPiece = .last then (trace2, .ok ())
        else writeLobLoop wOk B fuel r2 n2 Piece.last Piece.last
          (off + actLen) (idx + 1) trace2
      | (n2, none, r2) =>
        let trace2 := trace ++ [⟨actPiece, actLen, off + 1⟩]
        if wOk idx = false then (trace2, .error .ociError)
        else if actPiece = .one ∨ actPiece = .last then (trace2, .ok ())
        else writeLobLoop wOk B fuel r2 n2 nextPiece nextPiece
          (off + actLen) (idx + 1) trace2
    else
      -- a short current buffer only arises classified ONE or LAST, so the
      -- lookahead buffer (unused) is irrelevant here
      let trace2 := trace ++ [⟨actPiece, actLen, off + 1⟩]
      if wOk idx = false then (trace2, .error .ociError)
      else if actPiece = .one ∨ actPiece = .last then (trace2, .ok ())
      else writeLobLoop wOk B fuel r 0 nextPiece nextPiece
        (off + actLen) (idx + 1) trace2

/-- `writeLob` from `bndLob.go`: fills the first buffer with
`io.ReadFull`; a clean `io.EOF` yields the dedicated zero-length-BLOB
error before any native write, an `io.ErrUnexpectedEOF` makes the single
short chunk `OCI_ONE_PIECE`, any other reader error is returned verbatim,
and a full buffer starts the piece loop with `OCI_FIRST_PIECE`.  Returns
the trace of native write calls issued and the result. -/
def writeLob (r : Rd) (lobBufferSize : Nat) (wOk : Nat → Bool) :
    List WriteCall × Except OraErr Unit :=
  match readFull r lobBufferSize with
  | (_, some .eof, _) =>
    ([], .error (.errNew "writing a zero-length BLOB is unsupported"))
  | (_, some (.other m), _) => ([], .error (.goErr m))
  | (n, some .unexpectedEof, r1) =>
    writeLobLoop wOk lobBufferSize (r.avail + 2) r1 n .one .next 0 0 []
  | (_, none, r1) =>
    writeLobLoop wOk lobBufferSize (r.avail + 2) r1 lobBufferSize .first
      .next 0 0 []

theorem readFull_all (a : Nat) (ea : Option String) (w : Nat) (h : w ≤ a) :
    readFull ⟨a, ea⟩ w = (w, none, ⟨a - w, ea⟩) := by
  simp [readFull, h]

theorem readFull_eof (w : Nat) (h : 0 < w) :
    readFull ⟨0, none⟩ w = (0, some .eof, ⟨0, none⟩) := by
  simp [readFull, show ¬ (w ≤ 0) from by omega]

theorem readFull_short (a w : Nat) (h1 : a < w) (h2 : 0 < a) :
    readFull ⟨a, none⟩ w = (a, some .unexpectedEof, ⟨0, none⟩) := by
  simp [readFull, show ¬ (w ≤ a) from by omega, show ¬ (a = 0) from by omega]

theorem readFull_err (a w : Nat) (m : String) (h1 : a < w) :
    readFull ⟨a, some m⟩ w = (a, some (.other m), ⟨0, some m⟩) := by
  simp [readFull, show ¬ (w ≤ a) from by omega]

/-- Claim C1: for every byte source and every positive chunk size `B`,
`writeLob` issues exactly the piece sequence determined by the source
length `L`: `L = B` gives a single `OCI_ONE_PIECE` write of a full buffer;
`B < L < 2B` gives `OCI_FIRST_PIECE` (full) then `OCI_LAST_PIECE` (the
remaining `L - B` bytes); `L = 2B` gives `OCI_FIRST_PIECE` then
`OCI_LAST_PIECE`, both buffers full; and `L = 0` returns the dedicated
zero-length-BLOB error with no native write issued. -/
theorem writeLob_piece_sequence (L B : Nat) (hB : 0 < B) :
    (L = B → writeLob ⟨L, none⟩ B (fun _ => true) =
      ([⟨.one, B, 1⟩], .ok ())) ∧
    (B < L → L < 2 * B → writeLob ⟨L, none⟩ B (fun _ => true) =
      ([⟨.first, B, 1⟩, ⟨.last, L - B, B + 1⟩], .ok ())) ∧
    (L = 2 * B → writeLob ⟨L, none⟩ B (fun _ => true) =
      ([⟨.first, B, 1⟩, ⟨.last, B, B + 1⟩], .ok ())) ∧
    (L = 0 → writeLob ⟨L, none⟩ B (fun _ => true) =
      ([], .error (.errNew "writing a zero-length BLOB is unsupported"))) := by
  refine ⟨?_, ?_, ?_, ?_⟩
  · -- L = B : a single full chunk, classified OCI_ONE_PIECE
    rintro rfl
    unfold writeLob
    rw [readFull_all _ none _ (le_refl _)]
    simp only [Nat.sub_self]
    unfold writeLobLoop
    rw [if_pos rfl, readFull_eof _ hB]
    simp
  · -- B < L < 2B : OCI_FIRST_PIECE then a short OCI_LAST_PIECE
    intro hlo hhi
    unfold writeLob
    rw [readFull_all L none B (by omega)]
    unfold writeLobLoop
    rw [if_pos rfl, readFull_short (L - B) B (by omega) (by omega)]
    simp only [reduceCtorEq, Bool.false_eq_true, if_false, List.nil_append]
    rw [if_neg (by simp)]
    unfold writeLobLoop
    rw [if_neg (by omega)]
    simp
  · -- L = 2B : OCI_FIRST_PIECE then OCI_LAST_PIECE, both full
    rintro rfl
    unfold writeLob
    rw [readFull_all (2 * B) none B (by omega)]
    unfold writeLobLoop
    rw [if_pos rfl, readFull_all (2 * B - B) none B (by omega)]
    simp only [reduceCtorEq, Bool.false_eq_true, if_false, List.nil_append]
    rw [if_neg (by simp)]
    unfold writeLobLoop
    rw [show 2 * B - B = B from by omega, if_pos rfl, Nat.sub_self,
      readFull_eof B hB]
    simp
  · -- L = 0 : the dedicated empty-write error, no native write call
    rintro rfl
    unfold writeLob
    rw [readFull_eof B hB]

/-- Witness for `writeLob_piece_sequence` with chunk size 2 and source
length 3 (the strictly-between case). -/
theorem writeLob_piece_sequence_witness :
    (3 = 2 → writeLob ⟨3, none⟩ 2 (fun _ => true) =
      ([⟨.one, 2, 1⟩], .ok ())) ∧
    (2 < 3 → 3 < 2 * 2 → writeLob ⟨3, none⟩ 2 (fun _ => true) =
      ([⟨.first, 2, 1⟩, ⟨.last, 3 - 2, 2 + 1⟩], .ok ())) ∧
    (3 = 2 * 2 → writeLob ⟨3, none⟩ 2 (fun _ => true) =
      ([⟨.first, 2, 1⟩, ⟨.last, 2, 2 + 1⟩], .ok ())) ∧
    (3 = 0 → writeLob ⟨3, none⟩ 2 (fun _ => true) =
      ([], .error (.errNew "writing a zero-length BLOB is unsupported"))) :=
  writeLob_piece_sequence 3 2 (by decide)

/-! ### Temporary LOB allocation and `bindReader` (`bndLob.go`)

The native calls issued by `bindReader` and its callees are collected in a
trace of `BndAction`s.  `allocTempLob` is the two-phase allocation
(descriptor alloc, then create-temporary); on a create failure it frees
the descriptor it just allocated; on success it hands back a `finish`
cleanup that frees the temporary LOB and then the descriptor, modelled as
the action list `lobFinish`. -/

/-- A native call observable in the `bndLob` bind path. -/
inductive BndAction where
  | descAlloc
  | lobCreateTemp
  | write (w : WriteCall)
  | sesBreak
  | lobFreeTemp
  | descFree
  | bindByPos
deriving DecidableEq, Repr

/-- `allocTempLob` from `bndLob.go`: `OCIDescriptorAlloc` with status
`allocSt` (an `OCI_ERROR` status surfaces the generic last native error,
`OCI_INVALID_HANDLE` the dedicated handle-allocation error), then
`OCILobCreateTemporary` with success flag `createOk` (on failure the just
allocated locator descriptor is freed and the last native error returned).
Returns the trace of native calls and the result. -/
def allocTempLob (allocSt : OCIStatus) (createOk : Bool) :
    List BndAction × Except OraErr Unit :=
  match allocSt with
  | .error => ([.descAlloc], .error .ociError)
  | .invalidHandle =>
    ([.descAlloc], .error (.errNew "unable to allocate oci lob handle during bind"))
  | .success =>
    if createOk then ([.descAlloc, .lobCreateTemp], .ok ())
    else ([.descAlloc, .lobCreateTemp, .descFree], .error .ociError)

/-- The `finish` cleanup returned by a successful `allocTempLob`:
`OCILobFreeTemporary` then `OCIDescriptorFree` on the locator. -/
def lobFinish : List BndAction := [.lobFreeTemp, .descFree]

/-- `bndLob.bindByPos`: the `OCIBINDBYPOS` registration of the locator,
with success flag `bindOk`. -/
def bindByPos (bindOk : Bool) : List BndAction × Except OraErr Unit :=
  if bindOk then ([.bindByPos], .ok ()) else ([.bindByPos], .error .ociError)

/-- The result of `bindReader`: the trace of native calls issued and the
returned error, if any. -/
structure BindReaderRes where
  trace : List BndAction
  result : Except OraErr Unit
deriving Repr

/-- Modelled from the spec: `lobChunkSize`, the default chunk size used
when the caller requests a zero or negative buffer size, is declared
outside the files under scrutiny; only its positivity matters here. -/
def lobChunkSize : Nat := 8192

/-- `bndLob.bindReader` from `bndLob.go`: substitutes the default chunk
size for a non-positive `lobBufferSize`, allocates a temporary LOB (both
phases), streams the source with `writeLob`, and on a `writeLob` failure
calls `ses.Break()` and then the `finish` cleanup before returning that
error; on success registers the locator by position (freeing the
temporary LOB if the registration fails). -/
def bindReader (allocSt : OCIStatus) (createOk : Bool) (r : Rd)
    (lobBufferSize : Int) (wOk : Nat → Bool) (bindOk : Bool) :
    BindReaderRes :=
  let B : Nat := if lobBufferSize ≤ 0 then lobChunkSize
                 else lobBufferSize.toNat
  match allocTempLob allocSt createOk with
  | (t1, .error e) => ⟨t1, .error e⟩
  | (t1, .ok _) =>
    match writeLob r B wOk with
    | (wt, .error e) =>
      ⟨t1 ++ wt.map .write ++ [.sesBreak] ++ lobFinish, .error e⟩
    | (wt, .ok _) =>
      match bindByPos bindOk with
      | (bt, .error e) => ⟨t1 ++ wt.map .write ++ bt ++ lobFinish, .error e⟩
      | (bt, .ok _) => ⟨t1 ++ wt.map .write ++ bt, .ok ()⟩

/-- When the byte source fails with a reader error (never a clean end of
stream) and every native write succeeds, the piece loop always surfaces
exactly that reader error: the loop state keeps a full current buffer and
a FIRST/NEXT classification until the failing lookahead read. -/
theorem writeLobLoop_readerErr :
    ∀ (f a B : Nat) (m : String) (ap np : Piece) (off idx : Nat)
      (tr : List WriteCall),
      0 < B → a + 1 ≤ f → (ap = .first ∨ ap = .next) → np = .next →
      (writeLobLoop (fun _ => true) B f ⟨a, some m⟩ B ap np off idx
        tr).2 = .error (.goErr m) := by
  intro f
  induction f with
  | zero => intro a B m ap np off idx tr hB hf hap hnp; omega
  | succ f ih =>
    intro a B m ap np off idx tr hB hf hap hnp
    unfold writeLobLoop
    rw [if_pos rfl]
    by_cases hlt : a < B
    · rw [readFull_err a B m hlt]
    · rw [readFull_all a (some m) B (by omega)]
      simp only [reduceCtorEq, Bool.false_eq_true, if_false]
      rw [if_neg (by rcases hap with h | h <;> simp [h])]
      subst hnp
      exact ih (a - B) B m .next .next (off + B) (idx + 1) _ hB (by omega)
        (Or.inr rfl) rfl

/-- When the byte source fails with a reader error and every native write
succeeds, `writeLob` returns exactly that error. -/
theorem writeLob_readerErr (a B : Nat) (m : String) (hB : 0 < B) :
    (writeLob ⟨a, some m⟩ B (fun _ => true)).2 = .error (.goErr m) := by
  unfold writeLob
  by_cases hlt : a < B
  · rw [readFull_err a B m hlt]
  · rw [readFull_all a (some m) B (by omega)]
    exact writeLobLoop_readerErr (a + 2) (a - B) B m .first .next 0 0 []
      hB (by omega) (Or.inl rfl) rfl

/-- Claim C8: (1) whenever `writeLob` fails — for any reader, buffer size,
and native-write outcomes — `bindReader` cancels the current native call
(`ses.Break()`), frees the temporary LOB and its locator descriptor
(`lobFinish`), returns exactly the `writeLob` error, and never issues the
`OCIBINDBYPOS` registration; (2) a reader error other than clean
end-of-stream is propagated verbatim by `writeLob` (as the very reader
error, not wrapped as a native `ociError`). -/
theorem bindReader_write_failure_cleanup :
    (∀ (r : Rd) (bufSize : Int) (wOk : Nat → Bool) (bindOk : Bool)
       (e : OraErr),
      0 < bufSize →
      (writeLob r bufSize.toNat wOk).2 = .error e →
      bindReader .success true r bufSize wOk bindOk =
        ⟨[.descAlloc, .lobCreateTemp]
            ++ (writeLob r bufSize.toNat wOk).1.map .write
            ++ [.sesBreak] ++ lobFinish, .error e⟩ ∧
      BndAction.bindByPos ∉
        (bindReader .success true r bufSize wOk bindOk).trace) ∧
    (∀ (a B : Nat) (m : String), 0 < B →
      (writeLob ⟨a, some m⟩ B (fun _ => true)).2 = .error (.goErr m)) := by
  constructor
  · intro r bufSize wOk bindOk e hpos herr
    have hB : (if bufSize ≤ 0 then lobChunkSize else bufSize.toNat) =
        bufSize.toNat := by rw [if_neg (by omega)]
    have heq : bindReader .success true r bufSize wOk bindOk =
        ⟨[.descAlloc, .lobCreateTemp]
            ++ (writeLob r bufSize.toNat wOk).1.map .write
            ++ [.sesBreak] ++ lobFinish, .error e⟩ := by
      unfold bindReader
      rw [hB]
      rcases hw : writeLob r bufSize.toNat wOk with ⟨wt, we⟩
      rw [hw] at herr
      simp only at herr
      subst herr
      simp [allocTempLob, hw]
    refine ⟨heq, ?_⟩
    rw [heq]
    simp [lobFinish]
  · exact fun a B m hB => writeLob_readerErr a B m hB

/-- Witness for `bindReader_write_failure_cleanup`: a source that yields
3 bytes and then fails, with chunk size 2 (part 1), and a failing source
with 5 bytes before the error (part 2). -/
theorem bindReader_write_failure_cleanup_witness :
    (bindReader .success true ⟨3, some "disk error"⟩ 2 (fun _ => true) true =
      ⟨[.descAlloc, .lobCreateTemp]
          ++ (writeLob ⟨3, some "disk error"⟩ (2 : Int).toNat
                (fun _ => true)).1.map .write
          ++ [.sesBreak] ++ lobFinish, .error (.goErr "disk error")⟩ ∧
      BndAction.bindByPos ∉
        (bindReader .success true ⟨3, some "disk error"⟩ 2 (fun _ => true)
          true).trace) ∧
    (writeLob ⟨5, some "io failure"⟩ 2 (fun _ => true)).2 =
      .error (.goErr "io failure") :=
  ⟨bindReader_write_failure_cleanup.1 ⟨3, some "disk error"⟩ 2
      (fun _ => true) true (.goErr "disk error") (by decide) (by rfl),
   bindReader_write_failure_cleanup.2 5 2 "io failure" (by decide)⟩

/-! ### Scalar binds: `bndIntervalDS.bind` and `bndTime.bind`

Only the error flow is relevant to the claims: each native call is
represented by its status.  The value marshalling (interval fields, the
timestamp fields and the zone string built by `zoneOffset`) carries no
observable branching in the source. -/

/-- `bndIntervalDS.bind`: `OCIDescriptorAlloc` (status `allocSt`; an
`OCI_ERROR` surfaces the last native error, `OCI_INVALID_HANDLE` the
dedicated handle-allocation error), then `OCIIntervalSetDaySecond`
(success flag `setOk`), then `OCIBINDBYPOS` (success flag `bindOk`),
each failure surfacing the last native error. -/
def bndIntervalDS_bind (allocSt : OCIStatus) (setOk bindOk : Bool) :
    Except OraErr Unit :=
  match allocSt with
  | .error => .error .ociError
  | .invalidHandle =>
    .error (.errNew "unable to allocate oci interval handle during bind")
  | .success =>
    if setOk = false then .error .ociError
    else if bindOk = false then .error .ociError
    else .ok ()

/-- `bndTime.bind`: after computing the zone string with `zoneOffset`,
`OCIDescriptorAlloc` (status `allocSt`), then `OCIDateTimeConstruct`
(success flag `constructOk`), then `OCIBINDBYPOS` (success flag
`bindOk`). -/
def bndTime_bind (allocSt : OCIStatus) (constructOk bindOk : Bool) :
    Except OraErr Unit :=
  match allocSt with
  | .error => .error .ociError
  | .invalidHandle =>
    .error (.errNew "unable to allocate oci timestamp handle during bind")
  | .success =>
    if constructOk = false then .error .ociError
    else if bindOk = false then .error .ociError
    else .ok ()

/-- Claim C7: at every descriptor allocation performed during a bind
(interval, timestamp, LOB locator), an `OCI_INVALID_HANDLE` status yields
the dedicated handle-allocation-failure error (`errNew ...`), which is
distinct from the generic last-native-error (`ociError`) surfaced when
the status is `OCI_ERROR`. -/
theorem invalid_handle_dedicated_error :
    (∀ setOk bindOk : Bool,
      bndIntervalDS_bind .invalidHandle setOk bindOk =
        .error (.errNew "unable to allocate oci interval handle during bind") ∧
      bndIntervalDS_bind .error setOk bindOk = .error .ociError) ∧
    (∀ constructOk bindOk : Bool,
      bndTime_bind .invalidHandle constructOk bindOk =
        .error (.errNew "unable to allocate oci timestamp handle during bind") ∧
      bndTime_bind .error constructOk bindOk = .error .ociError) ∧
    (∀ createOk : Bool,
      (allocTempLob .invalidHandle createOk).2 =
        .error (.errNew "unable to allocate oci lob handle during bind") ∧
      (allocTempLob .error createOk).2 = .error .ociError) ∧
    (∀ msg : String, OraErr.errNew msg ≠ OraErr.ociError) := by
  refine ⟨fun _ _ => ⟨rfl, rfl⟩, fun _ _ => ⟨rfl, rfl⟩,
    fun _ => ⟨rfl, rfl⟩, fun _ => by simp⟩

/-! ### The `close` methods

Each binder kind has a `close` whose whole body runs under a deferred
`recover()` converting any panic into a returned `errRecovered`.  The
model executes the statements in order; a Go panic (either injected at
the native deallocation call via `panicAtFree`, to model a native call
that panics during cleanup, or arising from dereferencing a nil `stmt`
pointer at the `stmt.putBnd` pool-return step) aborts the remaining
statements and yields the recovered error.  Native descriptor handles are
modelled as `Option Nat` so a free call records exactly which handle (or
`none`) was passed.  `putBnd` itself lives outside the files under
scrutiny; per the spec it pushes the binder onto the statement's
free-list, which dereferences the statement, so calling it through a nil
statement pointer panics (and is recovered). -/

/-- A step observable during a `close`. -/
inductive Action where
  | descFree (d : Option Nat)
  | lobFreeTemp (d : Option Nat)
  | freeCZone
  | arrHlpClose
  | putBnd
deriving DecidableEq, Repr

/-- The result of a `close`: the steps performed, the returned error
(`errRecovered` exactly when a panic was recovered by the deferred
handler), and the binder state afterwards. -/
structure CloseRes (σ : Type) where
  trace : List Action
  err : Option OraErr
  state : σ
deriving Repr

/-- The fields of `bndIntervalDS`. -/
structure BndIntervalDS where
  stmt : Option Unit
  ocibnd : Option Unit
  ociInterval : Option Nat
deriving DecidableEq, Repr

/-- `bndIntervalDS.close`: frees the interval descriptor, zeroes the
fields, and returns the binder to the pool via `stmt.putBnd`; all under
the deferred recover. -/
def bndIntervalDS_close (panicAtFree : Bool) (b : BndIntervalDS) :
    CloseRes BndIntervalDS :=
  -- C.OCIDescriptorFree(bnd.ociInterval, OCI_DTYPE_INTERVAL_DS)
  if panicAtFree then ⟨[.descFree b.ociInterval], some .errRecovered, b⟩
  else
    -- stmt := bnd.stmt; bnd.stmt, bnd.ocibnd, bnd.ociInterval = nil
    match b.stmt with
    | none =>
      -- stmt.putBnd on a nil statement panics; recovered
      ⟨[.descFree b.ociInterval], some .errRecovered, ⟨none, none, none⟩⟩
    | some _ =>
      ⟨[.descFree b.ociInterval, .putBnd], none, ⟨none, none, none⟩⟩

/-- The fields of `bndTime` (`zoneBuf` as its character content). -/
structure BndTime where
  stmt : Option Unit
  ocibnd : Option Unit
  ociDateTime : Option Nat
  cZone : Option Nat
  zoneBuf : List Char
deriving DecidableEq, Repr

/-- `bndTime.close`: when `cZone` is non-nil, frees the C string, nils
`cZone`, and frees the timestamp descriptor; then zeroes the fields,
resets `zoneBuf`, and returns the binder via `stmt.putBnd`; all under the
deferred recover. -/
def bndTime_close (panicAtFree : Bool) (b : BndTime) : CloseRes BndTime :=
  match b.cZone with
  | some _ =>
    -- C.free(bnd.cZone); bnd.cZone = nil; C.OCIDescriptorFree(bnd.ociDateTime)
    if panicAtFree then
      ⟨[.freeCZone, .descFree b.ociDateTime], some .errRecovered,
        { b with cZone := none }⟩
    else
      match b.stmt with
      | none =>
        ⟨[.freeCZone, .descFree b.ociDateTime], some .errRecovered,
          ⟨none, none, none, none, []⟩⟩
      | some _ =>
        ⟨[.freeCZone, .descFree b.ociDateTime, .putBnd], none,
          ⟨none, none, none, none, []⟩⟩
  | none =>
    match b.stmt with
    | none => ⟨[], some .errRecovered, ⟨none, none, none, none, []⟩⟩
    | some _ => ⟨[.putBnd], none, ⟨none, none, none, none, []⟩⟩

/-- The fields of `bndLob`. -/
structure BndLob where
  stmt : Option Unit
  ocibnd : Option Unit
  ociLobLocator : Option Nat
deriving DecidableEq, Repr

/-- `bndLob.close`: `OCILobFreeTemporary(bnd.stmt.ses..., bnd.ociLobLocator)`
— evaluating `bnd.stmt.ses` dereferences the statement pointer, so a nil
`stmt` panics before any native call — then `OCIDescriptorFree` on the
locator, zeroing of the fields, and `stmt.putBnd`; all under the deferred
recover. -/
def bndLob_close (panicAtFree : Bool) (b : BndLob) : CloseRes BndLob :=
  match b.stmt with
  | none => ⟨[], some .errRecovered, b⟩
  | some _ =>
    if panicAtFree then
      ⟨[.lobFreeTemp b.ociLobLocator], some .errRecovered, b⟩
    else
      ⟨[.lobFreeTemp b.ociLobLocator, .descFree b.ociLobLocator, .putBnd],
        none, ⟨none, none, none⟩⟩

/-! ### The integer array binder (`bndInt64Slice`)

`OCINumber` is the library numeric wire type; `OCINumberFromInt` /
`OCINumberToInt` are native OCI conversions external to the repository,
modelled at their interface as an exact embedding of signed 64-bit
integers (the conversions are exact for inputs within 64-bit signed
range, which is all the driver ever passes with `inum_length = 8`,
`OCI_NUMBER_SIGNED`). -/

/-- The native library numeric value, modelled by the integer it
represents. -/
structure OCINumber where
  val : Int
deriving DecidableEq, Repr

/-- `OCINumberFromInt` on a signed 64-bit host integer. -/
def OCINumberFromInt (x : Int) : OCINumber := ⟨x⟩

/-- `OCINumberToInt` back to a signed 64-bit host integer. -/
def OCINumberToInt (n : OCINumber) : Int := n.val

/-- `ora.Int64`, the nullable 64-bit integer host value. -/
structure Int64 where
  IsNull : Bool := false
  Value : Int := 0
deriving DecidableEq, Repr

/-- The `arrHlp` buffer-pool fields embedded in every array binder:
null-indicator (`C.sb2` entries), actual-length and return-code arrays,
the current-length cell the native interface reports into for
associative-array binds, and the associative-array flag. -/
structure ArrHlp where
  nullInds : List Int
  alen : List Nat
  rcode : List Nat
  curlen : Nat
  isAssocArr : Bool
deriving DecidableEq, Repr

/-- Modelled from the spec: `arrHlp.close` is not among the files under
scrutiny.  Per the spec the pooled indicator/length/return-code arrays
are reusable across binds ("grows monotonically, never shrinks"), so
closing retains their backing content and resets the per-bind scalar
state. -/
def arrHlpClose (h : ArrHlp) : ArrHlp :=
  { h with curlen := 0, isAssocArr := false }

/-- The fields of `bndInt64Slice`. -/
structure BndInt64Slice where
  stmt : Option Unit
  ocibnd : Option Unit
  ociNumbers : List OCINumber
  values : Option (List Int64)
  ints : List Int
  hlp : ArrHlp
deriving DecidableEq, Repr

/-- Modelled from the spec: `arrHlp.ensureBindArrLength` is not among the
files under scrutiny.  Per the spec, for an associative-array (PL/SQL)
bind the capacity may need to grow by one synthetic trailing slot (when
the slice has no spare capacity) so the native interface can report a
used length distinct from the allocated length, and the current-length
cell is initialised to the row count; for ordinary batch execution the
length stays the row count and the iteration count equals it (one native
iteration processes the whole table for an associative bind).  The
actual-length and return-code arrays are (re)sized to the bind length;
the indicator array, already sized by the caller, keeps the input length.
Returns (iterations, needAppend). -/
def ensureBindArrLength (L cap0 : Nat) (assoc : Bool) : Nat × Bool :=
  if assoc then (1, decide (L = cap0)) else (L, false)

/-- `bndInt64Slice.bind`: runs `ensureBindArrLength`, appends the one
synthetic trailing slot to the value slice when required, converts every
value slot to the native numeric representation (filling the
actual-length array with the per-slot size), and registers the buffers.
The native conversion and registration calls are modelled as succeeding;
their failure paths only abort with `ociError` and touch no claim under
check.  Returns the updated binder and the iteration count. -/
def bndInt64Slice_bind (b : BndInt64Slice) (values : List Int)
    (cap0 : Nat) (assoc : Bool) : BndInt64Slice × Nat :=
  let L := values.length
  let p := ensureBindArrLength L cap0 assoc
  let values2 := if p.2 then values ++ [0] else values
  ({ b with
      ints := values2,
      ociNumbers := values2.map OCINumberFromInt,
      hlp := { b.hlp with
                alen := List.replicate values2.length 22,
                rcode := List.replicate values2.length 0,
                curlen := if assoc then L else b.hlp.curlen,
                isAssocArr := assoc } }, p.1)

/-- `bndInt64Slice.bindOra`: reuses (or reallocates, zero-filled) the
plain-integer buffer and the null-indicator buffer at the input length,
then splits the nullable slice: indicator -1 and untouched value slot for
a null row, indicator 0 and the row's integer otherwise; stores the
output-slice pointer; then performs `bind` on the plain slice.  Buffer
reuse is modelled by length (a fresh buffer is zero-filled, a reused one
keeps its previous content in the untouched slots). -/
def bndInt64Slice_bindOra (b : BndInt64Slice) (vals : List Int64)
    (cap0 : Nat) (assoc : Bool) : BndInt64Slice × Nat :=
  let L := vals.length
  let base := if b.ints.length < L then List.replicate L (0 : Int)
              else b.ints.take L
  let ints := (List.range L).map (fun n =>
    if (vals.getD n {}).IsNull then base.getD n 0 else (vals.getD n {}).Value)
  let nullInds := vals.map (fun v => if v.IsNull then (-1 : Int) else 0)
  bndInt64Slice_bind
    { b with
      ints := ints,
      values := some vals,
      hlp := { b.hlp with nullInds := nullInds } }
    ints cap0 assoc

/-- `bndInt64Slice.setPtr`: a no-op unless the bind was an
associative-array bind; otherwise truncates the parallel arrays to the
native interface's reported current length `curlen`, converts each
non-null native numeric slot back to a host integer, and rewrites the
output slice (growing it, zero-filled, if it was too short): non-null
rows get `IsNull = false` and the recovered integer, null rows are marked
`IsNull = true` (their value slot keeps the resized slice's content).
The native back-conversions are modelled as succeeding. -/
def bndInt64Slice_setPtr (b : BndInt64Slice) : BndInt64Slice :=
  if b.hlp.isAssocArr = false then b
  else
    let n := b.hlp.curlen
    let ints0 := b.ints.take n
    let nullInds := b.hlp.nullInds.take n
    let base : List Int64 :=
      match b.values with
      | none => []
      | some vs => vs.take n ++ List.replicate (n - vs.length) {}
    let newInts := (List.range n).map (fun i =>
      if nullInds.getD i 0 > -1 then OCINumberToInt (b.ociNumbers.getD i ⟨0⟩)
      else ints0.getD i 0)
    let newVals := (List.range n).map (fun i =>
      if nullInds.getD i 0 > -1 then
        ({ IsNull := false,
           Value := OCINumberToInt (b.ociNumbers.getD i ⟨0⟩) } : Int64)
      else { base.getD i {} with IsNull := true })
    { b with
        ints := newInts,
        hlp := { b.hlp with nullInds := nullInds },
        values := match b.values with | none => none | some _ => some newVals }

/-- `bndInt64Slice.close`: zeroes the statement, bind-handle and
output-slice references, closes the embedded `arrHlp`, and returns the
binder to the pool via `stmt.putBnd`; all under the deferred recover.
The `ints` and `ociNumbers` buffers are not touched. -/
def bndInt64Slice_close (b : BndInt64Slice) : CloseRes BndInt64Slice :=
  let b2 : BndInt64Slice :=
    { b with
      stmt := none,
      ocibnd := none,
      values := none,
      hlp := arrHlpClose b.hlp }
  match b.stmt with
  | none => ⟨[.arrHlpClose], some .errRecovered, b2⟩
  | some _ => ⟨[.arrHlpClose, .putBnd], none, b2⟩

theorem getD_map_of_lt {α β : Type} (l : List α) (f : α → β) (i : Nat)
    (d : β) (d0 : α) (hi : i < l.length) :
    (l.map f).getD i d = f (l.getD i d0) := by
  rw [List.getD_eq_getElem _ _ (by simpa using hi),
    List.getD_eq_getElem _ _ hi, List.getElem_map]

theorem getD_range_map {β : Type} (n : Nat) (f : Nat → β) (i : Nat)
    (d : β) (hi : i < n) :
    ((List.range n).map f).getD i d = f i := by
  rw [List.getD_eq_getElem _ _ (by simpa using hi), List.getElem_map,
    List.getElem_range]

theorem getD_take_of_lt {α : Type} (l : List α) (n i : Nat) (d : α)
    (hi : i < n) :
    (l.take n).getD i d = l.getD i d := by
  by_cases hl : i < l.length
  · rw [List.getD_eq_getElem _ _ (by simp; omega),
      List.getD_eq_getElem _ _ hl, List.getElem_take]
  · rw [List.getD_eq_default _ _ (by simp; omega),
      List.getD_eq_default _ _ (by omega)]

theorem getD_replicate_self {α : Type} (n i : Nat) (d : α) :
    (List.replicate n d).getD i d = d := by
  rw [List.getD_eq_getElem?_getD, List.getElem?_getD_replicate_default_eq]

/-! ### `DrvStmt` (`drvStmt.go`)

`DrvStmt` wraps a possibly-nil `*Stmt`.  The underlying statement is
modelled by the abstract results its methods would return.  `Close`,
`Exec` and `Query` all begin with `ds.log(true)`, whose argument
`ds.sysName()` reads `ds.stmt.ses.srv.env.id` — a Go nil-pointer
dereference (panic) when `ds.stmt` is nil, evaluated before
`checkIsOpen` can run. -/

/-- The underlying `*Stmt` as `DrvStmt` observes it. -/
structure StmtIface where
  numInput : Nat
  closeRes : Option OraErr
  exeRes : Except OraErr (Nat × Nat)
  qryRes : Option OraErr
deriving Repr

/-- `DrvStmt`: a possibly-nil reference to the underlying statement. -/
structure DrvStmt where
  stmt : Option StmtIface
deriving Repr

/-- The outcome of a `DrvStmt` method: normal return, returned error, or
a propagated Go runtime panic (nil-pointer dereference). -/
inductive Outcome (α : Type) where
  | ok (a : α)
  | err (e : OraErr)
  | panicked
deriving DecidableEq, Repr

/-- `ds.log(true)`: with logging enabled the call evaluates
`ds.sysName()` as an argument; `sysName` dereferences `ds.stmt`, so a
nil statement panics here. -/
def drvStmtLog (ds : DrvStmt) : Outcome Unit :=
  match ds.stmt with
  | none => .panicked
  | some _ => .ok ()

/-- `DrvStmt.checkIsOpen`: the intended closed-statement guard. -/
def drvStmtCheckIsOpen (ds : DrvStmt) : Option OraErr :=
  match ds.stmt with
  | none => some (.er "DrvStmt is closed.")
  | some _ => none

/-- `DrvStmt.Close`: `ds.log(true)`, then `checkIsOpen`, then the
underlying `stmt.Close()`. -/
def drvStmtClose (ds : DrvStmt) : Outcome Unit :=
  match drvStmtLog ds with
  | .panicked => .panicked
  | _ =>
    match drvStmtCheckIsOpen ds with
    | some e => .err (errE e)
    | none =>
      match ds.stmt with
      | none => .panicked
      | some s =>
        match s.closeRes with
        | some e => .err (errE e)
        | none => .ok ()

/-- `DrvStmt.NumInput`: 0 for a nil statement, otherwise the underlying
count.  (No log call here.) -/
def drvStmtNumInput (ds : DrvStmt) : Nat :=
  match ds.stmt with
  | none => 0
  | some s => s.numInput

/-- `DrvStmt.Exec`: `ds.log(true)`, `checkIsOpen`, then `stmt.exe`;
`none` models `driver.ResultNoRows` (zero rows affected). -/
def drvStmtExec (ds : DrvStmt) (values : List Unit) :
    Outcome (Option (Nat × Nat)) :=
  match values with
  | _ =>
    match drvStmtLog ds with
    | .panicked => .panicked
    | _ =>
      match drvStmtCheckIsOpen ds with
      | some e => .err (errE e)
      | none =>
        match ds.stmt with
        | none => .panicked
        | some s =>
          match s.exeRes with
          | .error e => .err (errE e)
          | .ok (rowsAffected, lastInsertId) =>
            if rowsAffected = 0 then .ok none
            else .ok (some (rowsAffected, lastInsertId))

/-- `DrvStmt.Query`: `ds.log(true)`, `checkIsOpen`, then `stmt.qry`. -/
def drvStmtQuery (ds : DrvStmt) (values : List Unit) : Outcome Unit :=
  match values with
  | _ =>
    match drvStmtLog ds with
    | .panicked => .panicked
    | _ =>
      match drvStmtCheckIsOpen ds with
      | some e => .err (errE e)
      | none =>
        match ds.stmt with
        | none => .panicked
        | some s =>
          match s.qryRes with
          | some e => .err (errE e)
          | none => .ok ()

/-- Claim C10 (code-bug record): on a `DrvStmt` whose underlying
statement is nil, `NumInput` does return 0 as claimed and
`checkIsOpen` holds the intended "DrvStmt is closed." error, but
`Close`, `Exec` and `Query` do not return that error: each evaluates
`ds.sysName()` inside `ds.log(true)` first, which dereferences the nil
statement and panics before `checkIsOpen` runs. -/
theorem drvStmt_nil_stmt_behavior :
    (∀ values : List Unit,
      drvStmtExec ⟨none⟩ values = .panicked ∧
      drvStmtQuery ⟨none⟩ values = .panicked) ∧
    drvStmtClose ⟨none⟩ = .panicked ∧
    drvStmtNumInput ⟨none⟩ = 0 ∧
    drvStmtCheckIsOpen ⟨none⟩ = some (.er "DrvStmt is closed.") :=
  ⟨fun _ => ⟨rfl, rfl⟩, rfl, rfl, rfl⟩

/-! ### Claim theorems about the `close` models -/

/-- Claim C2 counterexample: with a panic injected at the native
deallocation (the `OCIDescriptorFree` call) of `bndIntervalDS.close`,
the panic is recovered and converted to a returned error — but the
`putBnd` pool-return step IS skipped, contradicting the claim that the
binder is always returned to its pool. -/
theorem close_panic_skips_pool_return :
    (bndIntervalDS_close true ⟨some (), some (), some 1⟩).err =
      some .errRecovered ∧
    Action.putBnd ∉
      (bndIntervalDS_close true ⟨some (), some (), some 1⟩).trace := by
  decide

/-- Claim C2 (amended): for every binder kind that performs a native
deallocation in `close` (interval, time with a live zone buffer, LOB
with a live statement), a panic during that deallocation is recovered by
the deferred handler and converted to a returned error — it never
propagates — but on that path the binder is not returned to the
statement pool (`putBnd` is skipped); without a panic the binder is
returned to the pool. -/
theorem close_panic_recovered_pool_return_skipped :
    (∀ b : BndIntervalDS,
      (bndIntervalDS_close true b).err = some .errRecovered ∧
      Action.putBnd ∉ (bndIntervalDS_close true b).trace) ∧
    (∀ b : BndTime, b.cZone.isSome = true →
      (bndTime_close true b).err = some .errRecovered ∧
      Action.putBnd ∉ (bndTime_close true b).trace) ∧
    (∀ b : BndLob, b.stmt.isSome = true →
      (bndLob_close true b).err = some .errRecovered ∧
      Action.putBnd ∉ (bndLob_close true b).trace) ∧
    (∀ b : BndIntervalDS, b.stmt.isSome = true →
      (bndIntervalDS_close false b).err = none ∧
      Action.putBnd ∈ (bndIntervalDS_close false b).trace) := by
  refine ⟨fun b => ⟨rfl, by simp [bndIntervalDS_close]⟩, ?_, ?_, ?_⟩
  · rintro ⟨st, ob, od, cz, zb⟩ h
    cases cz with
    | none => simp at h
    | some z => exact ⟨rfl, by simp [bndTime_close]⟩
  · rintro ⟨st, ob, ol⟩ h
    cases st with
    | none => simp at h
    | some u => exact ⟨rfl, by simp [bndLob_close]⟩
  · rintro ⟨st, ob, oi⟩ h
    cases st with
    | none => simp at h
    | some u => exact ⟨rfl, by simp [bndIntervalDS_close]⟩

/-- Witness for `close_panic_recovered_pool_return_skipped` at concrete
binder states. -/
theorem close_panic_recovered_pool_return_skipped_witness :
    ((bndIntervalDS_close true ⟨some (), some (), some 5⟩).err =
        some .errRecovered ∧
      Action.putBnd ∉
        (bndIntervalDS_close true ⟨some (), some (), some 5⟩).trace) ∧
    ((bndTime_close true ⟨some (), some (), some 2, some 3, ['+']⟩).err =
        some .errRecovered ∧
      Action.putBnd ∉
        (bndTime_close true ⟨some (), some (), some 2, some 3, ['+']⟩).trace) ∧
    ((bndLob_close true ⟨some (), some (), some 4⟩).err =
        some .errRecovered ∧
      Action.putBnd ∉
        (bndLob_close true ⟨some (), some (), some 4⟩).trace) ∧
    ((bndIntervalDS_close false ⟨some (), some (), some 5⟩).err = none ∧
      Action.putBnd ∈
        (bndIntervalDS_close false ⟨some (), some (), some 5⟩).trace) :=
  ⟨close_panic_recovered_pool_return_skipped.1 ⟨some (), some (), some 5⟩,
   close_panic_recovered_pool_return_skipped.2.1
     ⟨some (), some (), some 2, some 3, ['+']⟩ (by decide),
   close_panic_recovered_pool_return_skipped.2.2.1
     ⟨some (), some (), some 4⟩ (by decide),
   close_panic_recovered_pool_return_skipped.2.2.2
     ⟨some (), some (), some 5⟩ (by decide)⟩

/-- Claim C6: calling `close` a second time after a successful first
close never propagates a panic (the nil-statement dereference at the
pool-return is recovered into a returned error) and never frees a
native descriptor a second time: the interval binder frees only a nil
descriptor, the time binder skips its free block entirely (`cZone` is
already nil), the LOB binder panics on argument evaluation before any
native call (recovered), and the slice binder has no native free at
all. -/
theorem close_twice_safe :
    (∀ b : BndIntervalDS,
      bndIntervalDS_close false ((bndIntervalDS_close false b).state) =
        ⟨[.descFree none], some .errRecovered, ⟨none, none, none⟩⟩) ∧
    (∀ b : BndTime,
      bndTime_close false ((bndTime_close false b).state) =
        ⟨[], some .errRecovered, ⟨none, none, none, none, []⟩⟩) ∧
    (∀ b : BndLob,
      (bndLob_close false ((bndLob_close false b).state)).trace = [] ∧
      (bndLob_close false ((bndLob_close false b).state)).err =
        some .errRecovered) ∧
    (∀ b : BndInt64Slice,
      (bndInt64Slice_close ((bndInt64Slice_close b).state)).trace =
        [.arrHlpClose] ∧
      (bndInt64Slice_close ((bndInt64Slice_close b).state)).err =
        some .errRecovered) := by
  refine ⟨?_, ?_, ?_, ?_⟩
  · rintro ⟨st, ob, oi⟩
    cases st <;> rfl
  · rintro ⟨st, ob, od, cz, zb⟩
    cases st <;> cases cz <;> rfl
  · rintro ⟨st, ob, ol⟩
    cases st <;> exact ⟨rfl, rfl⟩
  · rintro ⟨st, ob, onums, vs, is, hl⟩
    cases st <;> exact ⟨rfl, rfl⟩

/-- Claim C9 counterexample: `bndInt64Slice.close` does not reset the
binder's value buffers to their zero state — at this concrete state the
`ints` buffer still holds its content after `close`. -/
theorem close_retains_value_buffer :
    ¬ ((bndInt64Slice_close
        ⟨some (), some (), [⟨7⟩], some [], [7],
          ⟨[0], [22], [0], 1, true⟩⟩).state.ints = [] ∧
       (bndInt64Slice_close
        ⟨some (), some (), [⟨7⟩], some [], [7],
          ⟨[0], [22], [0], 1, true⟩⟩).state.ociNumbers = []) := by
  decide

/-- Claim C9 (amended): `close` zeroes the statement, bind-handle and
native-descriptor references for every binder kind (the LOB binder when
its statement reference is live; a nil statement panics before the
zeroing and is recovered), and the slice binder additionally zeroes its
output-slice pointer — so a reacquired binder carries no residual
native descriptor or statement reference — but the slice binder's value
buffers (`ints`, `ociNumbers`) and the pooled `arrHlp` arrays keep
their content for reuse. -/
theorem close_zeroes_references :
    (∀ b : BndIntervalDS,
      (bndIntervalDS_close false b).state = ⟨none, none, none⟩) ∧
    (∀ b : BndTime,
      (bndTime_close false b).state = ⟨none, none, none, none, []⟩) ∧
    (∀ b : BndLob, b.stmt.isSome = true →
      (bndLob_close false b).state = ⟨none, none, none⟩) ∧
    (∀ b : BndInt64Slice,
      (bndInt64Slice_close b).state.stmt = none ∧
      (bndInt64Slice_close b).state.ocibnd = none ∧
      (bndInt64Slice_close b).state.values = none ∧
      (bndInt64Slice_close b).state.ints = b.ints ∧
      (bndInt64Slice_close b).state.ociNumbers = b.ociNumbers ∧
      (bndInt64Slice_close b).state.hlp.nullInds = b.hlp.nullInds) := by
  refine ⟨?_, ?_, ?_, ?_⟩
  · rintro ⟨st, ob, oi⟩
    cases st <;> rfl
  · rintro ⟨st, ob, od, cz, zb⟩
    cases st <;> cases cz <;> rfl
  · rintro ⟨st, ob, ol⟩ h
    cases st with
    | none => simp at h
    | some u => rfl
  · rintro ⟨st, ob, onums, vs, is, hl⟩
    cases st <;> exact ⟨rfl, rfl, rfl, rfl, rfl, rfl⟩

/-- Witness for `close_zeroes_references` (the LOB conjunct carries the
live-statement hypothesis). -/
theorem close_zeroes_references_witness :
    (bndLob_close false ⟨some (), some (), some 9⟩).state =
      ⟨none, none, none⟩ :=
  close_zeroes_references.2.2.1 ⟨some (), some (), some 9⟩ (by decide)

/-! ### Claim theorems about the slice binder -/

/-- Claim C3: for an associative-array bind whose numeric buffer holds
the originally bound integers (as produced by `bind`), after `setPtr`
the output slice is present with length equal to the native-reported
current length; a row whose indicator denotes non-null carries exactly
the originally bound integer (round-trip through the native numeric
representation, exact for inputs within 64-bit signed range), and a row
whose indicator denotes null is marked `IsNull`. -/
theorem setPtr_assoc_roundtrip (b : BndInt64Slice) (xs : List Int)
    (vs : List Int64) (i : Nat)
    (hassoc : b.hlp.isAssocArr = true)
    (hnum : b.ociNumbers = xs.map OCINumberFromInt)
    (hrange : ∀ x ∈ xs, -(2 : Int) ^ 63 ≤ x ∧ x < 2 ^ 63)
    (hv : b.values = some vs)
    (hn : b.hlp.curlen ≤ xs.length)
    (hi : i < b.hlp.curlen) :
    (bndInt64Slice_setPtr b).values.isSome = true ∧
    ((bndInt64Slice_setPtr b).values.getD []).length = b.hlp.curlen ∧
    (b.hlp.nullInds.getD i 0 > -1 →
      ((bndInt64Slice_setPtr b).values.getD []).getD i {} =
        { IsNull := false, Value := xs.getD i 0 }) ∧
    (¬ b.hlp.nullInds.getD i 0 > -1 →
      (((bndInt64Slice_setPtr b).values.getD []).getD i {}).IsNull
        = true) := by
  have hix : i < xs.length := lt_of_lt_of_le hi hn
  have hval : (bndInt64Slice_setPtr b).values =
      some ((List.range b.hlp.curlen).map (fun j =>
        if (b.hlp.nullInds.take b.hlp.curlen).getD j 0 > -1 then
          ({ IsNull := false,
             Value := OCINumberToInt (b.ociNumbers.getD j ⟨0⟩) } : Int64)
        else
          { ((vs.take b.hlp.curlen ++
              List.replicate (b.hlp.curlen - vs.length)
                ({} : Int64)).getD j ({} : Int64)) with
            IsNull := true })) := by
    unfold bndInt64Slice_setPtr
    rw [if_neg (by simp [hassoc]), hv]
  refine ⟨by rw [hval]; rfl, by rw [hval]; simp, ?_, ?_⟩
  · intro hpos
    rw [hval]
    simp only [Option.getD_some]
    rw [getD_range_map _ _ i _ hi,
      getD_take_of_lt b.hlp.nullInds b.hlp.curlen i 0 hi, if_pos hpos,
      hnum, getD_map_of_lt xs OCINumberFromInt i ⟨0⟩ 0 hix]
    rfl
  · intro hneg
    rw [hval]
    simp only [Option.getD_some]
    rw [getD_range_map _ _ i _ hi,
      getD_take_of_lt b.hlp.nullInds b.hlp.curlen i 0 hi, if_neg hneg]

/-- Witness for `setPtr_assoc_roundtrip`: an associative-array binder
holding the bound integers 5 and 9 with both rows non-null, inspected at
row 0. -/
theorem setPtr_assoc_roundtrip_witness :
    (bndInt64Slice_setPtr
      ⟨some (), some (), [⟨5⟩, ⟨9⟩], some [⟨true, 0⟩], [5, 9],
        ⟨[0, -1], [22, 22], [0, 0], 2, true⟩⟩).values.isSome = true ∧
    ((bndInt64Slice_setPtr
      ⟨some (), some (), [⟨5⟩, ⟨9⟩], some [⟨true, 0⟩], [5, 9],
        ⟨[0, -1], [22, 22], [0, 0], 2, true⟩⟩).values.getD []).length =
      (⟨[0, -1], [22, 22], [0, 0], 2, true⟩ : ArrHlp).curlen ∧
    ((⟨[0, -1], [22, 22], [0, 0], 2, true⟩ : ArrHlp).nullInds.getD 0 0
        > -1 →
      ((bndInt64Slice_setPtr
        ⟨some (), some (), [⟨5⟩, ⟨9⟩], some [⟨true, 0⟩], [5, 9],
          ⟨[0, -1], [22, 22], [0, 0], 2, true⟩⟩).values.getD []).getD 0 {}
        = { IsNull := false, Value := [(5 : Int), 9].getD 0 0 }) ∧
    (¬ (⟨[0, -1], [22, 22], [0, 0], 2, true⟩ : ArrHlp).nullInds.getD 0 0
        > -1 →
      (((bndInt64Slice_setPtr
        ⟨some (), some (), [⟨5⟩, ⟨9⟩], some [⟨true, 0⟩], [5, 9],
          ⟨[0, -1], [22, 22], [0, 0], 2, true⟩⟩).values.getD []).getD 0
          {}).IsNull = true) :=
  setPtr_assoc_roundtrip
    ⟨some (), some (), [⟨5⟩, ⟨9⟩], some [⟨true, 0⟩], [5, 9],
      ⟨[0, -1], [22, 22], [0, 0], 2, true⟩⟩
    [5, 9] [⟨true, 0⟩] 0 (by decide) (by decide)
    (by decide) (by decide) (by decide) (by decide)

/-- Claim C4: after `bindOra` the null-indicator array has the same
length as the input slice, with indicator -1 exactly on the rows marked
null (0 otherwise), and the plain value buffer keeps its zero/previous
content at null rows. -/
theorem bindOra_null_indicators (b : BndInt64Slice) (vals : List Int64)
    (cap0 : Nat) (assoc : Bool) (i : Nat) (hi : i < vals.length) :
    (bndInt64Slice_bindOra b vals cap0 assoc).1.hlp.nullInds.length =
      vals.length ∧
    ((bndInt64Slice_bindOra b vals cap0 assoc).1.hlp.nullInds.getD i 0 =
        -1 ↔ (vals.getD i {}).IsNull = true) ∧
    ((vals.getD i {}).IsNull = false →
      (bndInt64Slice_bindOra b vals cap0 assoc).1.hlp.nullInds.getD i 0
        = 0) ∧
    ((vals.getD i {}).IsNull = true →
      (bndInt64Slice_bindOra b vals cap0 assoc).1.ints.getD i 0 =
        (if b.ints.length < vals.length then 0 else b.ints.getD i 0)) := by
  have hnulls : (bndInt64Slice_bindOra b vals cap0 assoc).1.hlp.nullInds =
      vals.map (fun v => if v.IsNull then (-1 : Int) else 0) := rfl
  have hints : (bndInt64Slice_bindOra b vals cap0 assoc).1.ints =
      (if (ensureBindArrLength vals.length cap0 assoc).2 then
        ((List.range vals.length).map (fun n =>
          if (vals.getD n {}).IsNull then
            (if b.ints.length < vals.length then
              List.replicate vals.length (0 : Int)
             else b.ints.take vals.length).getD n 0
          else (vals.getD n {}).Value)) ++ [0]
       else
        (List.range vals.length).map (fun n =>
          if (vals.getD n {}).IsNull then
            (if b.ints.length < vals.length then
              List.replicate vals.length (0 : Int)
             else b.ints.take vals.length).getD n 0
          else (vals.getD n {}).Value)) := by
    unfold bndInt64Slice_bindOra bndInt64Slice_bind
    simp only [List.length_map, List.length_range]
  have hmid : ((List.range vals.length).map (fun n =>
      if (vals.getD n {}).IsNull then
        (if b.ints.length < vals.length then
          List.replicate vals.length (0 : Int)
         else b.ints.take vals.length).getD n 0
      else (vals.getD n {}).Value)).getD i 0 =
      (if (vals.getD i {}).IsNull then
        (if b.ints.length < vals.length then 0 else b.ints.getD i 0)
       else (vals.getD i {}).Value) := by
    rw [getD_range_map _ _ i _ hi]
    by_cases hb : b.ints.length < vals.length
    · rw [if_pos hb, if_pos hb, getD_replicate_self]
    · rw [if_neg hb, if_neg hb,
        getD_take_of_lt b.ints vals.length i 0 hi]
  refine ⟨by rw [hnulls]; simp, ?_, ?_, ?_⟩
  · rw [hnulls, getD_map_of_lt vals _ i 0 {} hi]
    by_cases h : (vals.getD i ({} : Int64)).IsNull = true
    · rw [if_pos h]
      exact iff_of_true rfl h
    · rw [if_neg h]
      exact iff_of_false (by norm_num) h
  · intro h
    rw [hnulls, getD_map_of_lt vals _ i 0 {} hi,
      if_neg (by rw [h]; simp)]
  · intro h
    rw [hints]
    by_cases hc : (ensureBindArrLength vals.length cap0 assoc).2
    · rw [if_pos hc, List.getD_append _ _ _ _ (by simp [hi]), hmid,
        if_pos h]
    · rw [if_neg hc, hmid, if_pos h]

/-- Witness for `bindOra_null_indicators`: a binder whose previous
integer buffer holds 10 and 20, bound over a null row followed by the
value 42, inspected at row 0 (the null row keeps the previous buffer
content 10). -/
theorem bindOra_null_indicators_witness :
    (bndInt64Slice_bindOra
      ⟨none, none, [], none, [10, 20], ⟨[], [], [], 0, false⟩⟩
      [⟨true, 0⟩, ⟨false, 42⟩] 2 false).1.hlp.nullInds.length =
      ([⟨true, 0⟩, ⟨false, 42⟩] : List Int64).length ∧
    ((bndInt64Slice_bindOra
      ⟨none, none, [], none, [10, 20], ⟨[], [], [], 0, false⟩⟩
      [⟨true, 0⟩, ⟨false, 42⟩] 2 false).1.hlp.nullInds.getD 0 0 = -1 ↔
      (([⟨true, 0⟩, ⟨false, 42⟩] : List Int64).getD 0 {}).IsNull =
        true) ∧
    ((([⟨true, 0⟩, ⟨false, 42⟩] : List Int64).getD 0 {}).IsNull = false →
      (bndInt64Slice_bindOra
        ⟨none, none, [], none, [10, 20], ⟨[], [], [], 0, false⟩⟩
        [⟨true, 0⟩, ⟨false, 42⟩] 2 false).1.hlp.nullInds.getD 0 0 = 0) ∧
    ((([⟨true, 0⟩, ⟨false, 42⟩] : List Int64).getD 0 {}).IsNull = true →
      (bndInt64Slice_bindOra
        ⟨none, none, [], none, [10, 20], ⟨[], [], [], 0, false⟩⟩
        [⟨true, 0⟩, ⟨false, 42⟩] 2 false).1.ints.getD 0 0 =
        (if ([10, 20] : List Int).length <
            ([⟨true, 0⟩, ⟨false, 42⟩] : List Int64).length then 0
         else ([10, 20] : List Int).getD 0 0)) :=
  bindOra_null_indicators
    ⟨none, none, [], none, [10, 20], ⟨[], [], [], 0, false⟩⟩
    [⟨true, 0⟩, ⟨false, 42⟩] 2 false 0 (by decide)

end Ora
